import Mathlib

/-!
Verification development for the V4L2 capture test program
(src/hack/v4l2-test.cpp).  The program opens two video-capture devices,
negotiates a format, maps a ring of kernel buffers, and repeatedly polls
each device for one filled buffer, decoding the bytes into planar
application buffers.

The effectful C++ code is shallowly embedded: each ioctl-style device
interaction is represented by an oracle value describing what the device
answers, and the control flow of the constructor and of `poll` is
reproduced as a pure function from that oracle to an outcome plus a trace
of observable actions.  Pixel decoding is embedded directly as pure
functions.  Machine `unsigned int` arithmetic is Nat with explicit
reduction modulo 2^32 where the source can overflow.
-/

namespace V4L2Test

/-- Linux errno value for an interrupted system call (EINTR). -/
def eintrCode : Nat := 4

/-- Linux errno value for "resource temporarily unavailable" (EAGAIN). -/
def eagainCode : Nat := 11

/-- Linux errno value for "invalid argument" (EINVAL). -/
def einvalCode : Nat := 22

/-- Result of one raw ioctl attempt: the return value `r` and the value
of `errno` after the call (meaningful when `r < 0`). -/
structure CallResult where
  r : Int
  en : Nat
deriving DecidableEq, Repr

/-- A raw attempt that fails with EINTR. -/
def eintrAttempt : CallResult := ⟨-1, eintrCode⟩

/-- Embedding of `xioctl` (v4l2-test.cpp lines 21-28): repeat the raw
ioctl while it returns a negative value with errno EINTR.  The list is
the sequence of raw results the kernel would produce on the successive
attempts; `none` means every listed attempt was an EINTR failure, i.e.
the loop has not settled within the modelled attempts. -/
def xioctl : List CallResult → Option CallResult
  | [] => none
  | c :: rest => if c.r < 0 ∧ c.en = eintrCode then xioctl rest else some c

/-! ## Pixel decoding -/

/-- Embedding of the packed pixel struct `z16y8_pixel` (lines 31-33):
one 16-bit depth sample `z` immediately followed by one 8-bit intensity
sample `y`.  Samples are modelled at element level as natural numbers. -/
structure z16y8_pixel where
  z : Nat
  y : Nat
deriving DecidableEq, Repr

/-- Pointwise update of a plane modelled as a function from index to
sample value. -/
def planeSet (f : Nat → Nat) (i v : Nat) : Nat → Nat :=
  fun j => if j = i then v else f j

/-- Embedding of the combined depth+intensity decode loop
(lines 255-259): `for(i = 0; i < n; ++i) z[i] = in[i].z, y[i] = in[i].y`,
with the loop bound `n` as a parameter (the program instantiates it with
320*240).  `mem` is the mapped capture buffer reinterpreted as an array
of packed elements; the two returned planes are the depth plane and the
intensity plane after the loop. -/
def z16y8UnpackLoop (mem : Nat → z16y8_pixel) :
    Nat → (Nat → Nat) → (Nat → Nat) → (Nat → Nat) × (Nat → Nat)
  | 0, zbuf, ybuf => (zbuf, ybuf)
  | n + 1, zbuf, ybuf =>
    let p := z16y8UnpackLoop mem n zbuf ybuf
    (planeSet p.1 n (mem n).z, planeSet p.2 n (mem n).y)

/-- Number of packed elements the combined-sensor callback always
processes: 320 * 240 (lines 255-259). -/
def dev1ElemCount : Nat := 320 * 240

/-- Embedding of the dev1 poll callback (lines 252-261): reinterpret the
buffer as packed elements and unpack exactly 320*240 of them into the
depth plane and the intensity plane.  The reported produced-byte-count
`size` is received but only printed, never used to bound the loop. -/
def dev1Callback (mem : Nat → z16y8_pixel) (size : Nat)
    (zbuf ybuf : Nat → Nat) : (Nat → Nat) × (Nat → Nat) :=
  let _ := size
  z16y8UnpackLoop mem dev1ElemCount zbuf ybuf

/-! ## Interleaved-color path -/

/-- Embedding of `memcpy(dst, src, n)` on byte lists: the first `n`
bytes of the destination are replaced by the first `n` bytes of the
source, the rest of the destination is untouched. -/
def memcpyBytes (dst src : List Nat) (n : Nat) : List Nat :=
  src.take n ++ dst.drop n

/-- Embedding of the dev0 poll callback (lines 246-250):
`memcpy(yuy2, data, size)` — the raw interleaved color bytes are copied
unchanged into the display buffer. -/
def dev0Callback (yuy2 data : List Nat) (size : Nat) : List Nat :=
  memcpyBytes yuy2 data size

/-! ## Defensive minimums on the negotiated format -/

/-- Modulus of the C `unsigned int` fields of `v4l2_pix_format`. -/
def u32Mod : Nat := 2 ^ 32

/-- The format fields the program reads and adjusts: all `__u32` in the
kernel ABI, modelled as natural numbers below 2^32. -/
structure PixFormat where
  width : Nat
  height : Nat
  bytesperline : Nat
  sizeimage : Nat
deriving DecidableEq, Repr

/-- Embedding of the "buggy driver paranoia" step (lines 118-122):
raise `bytesperline` to `width * 2` and then `sizeimage` to
`bytesperline * height` when the device reported smaller values.  The
products are taken modulo 2^32 exactly as the 32-bit source arithmetic
would wrap. -/
def defensiveMin (f : PixFormat) : PixFormat :=
  let minBpl := f.width * 2 % u32Mod
  let bpl := if f.bytesperline < minBpl then minBpl else f.bytesperline
  let minSz := bpl * f.height % u32Mod
  let sz := if f.sizeimage < minSz then minSz else f.sizeimage
  { f with bytesperline := bpl, sizeimage := sz }

/-! ## The poll loop -/

/-- Outcome of one `select` call inside the poll loop (line 199): an
error with the given errno, a timeout (return value 0), or readiness. -/
inductive SelectResult where
  | err (en : Nat)
  | timeout
  | ready
deriving DecidableEq, Repr

/-- What the device does on one iteration of the poll loop: the result
of the `select` wait, the raw attempt sequence of the `VIDIOC_DQBUF`
ioctl together with the buffer index and `bytesused` it reports on
success, and the raw attempt sequence of the re-queueing `VIDIOC_QBUF`
ioctl. -/
structure PollStep where
  sel : SelectResult
  dqCalls : List CallResult
  dqIndex : Nat
  dqBytes : Nat
  qbufCalls : List CallResult
deriving DecidableEq, Repr

/-- Observable events of one `poll` call: a `select` wait armed with a
timeout of `tv` seconds, an invocation of the supplied callback with the
start address of buffer `idx` and its `bytesused`, and a re-submission
of buffer `idx` to the device. -/
inductive PollEvent where
  | wait (tv : Nat)
  | callback (idx bytes : Nat)
  | requeue (idx : Nat)
deriving DecidableEq, Repr

/-- How a `poll` call ends.  The errno-carrying constructors correspond
to the `throw_error` sites; `hung` means an xioctl retry loop never
settled within the modelled attempts; `outOfSteps` means the modelled
iteration sequence was exhausted while the loop was still running. -/
inductive PollOutcome where
  | success (idx bytes : Nat)
  | pollFailed (en : Nat)
  | pollTimeout
  | dqbufFailed (en : Nat)
  | requeueFailed (en : Nat)
  | assertFailed
  | hung
  | outOfSteps
deriving DecidableEq, Repr

/-- Embedding of `subdevice::poll` (lines 184-226) for a device with
`nb` mapped buffers.  Each iteration re-initialises the timeout to 2
seconds, waits via `select`, retries on EINTR, fails on other `select`
errors or on timeout, dequeues a buffer through xioctl (looping back to
the wait on EAGAIN), asserts the index is in range, invokes the callback
with that buffer and its produced byte count, and finally re-queues the
same buffer; re-queue failure is fatal.  The returned list is the trace
of observable events in order. -/
def poll (nb : Nat) : List PollStep → List PollEvent × PollOutcome
  | [] => ([], .outOfSteps)
  | s :: rest =>
    let tv : Nat := 2
    match s.sel with
    | .err en =>
      if en = eintrCode then
        let p := poll nb rest
        (.wait tv :: p.1, p.2)
      else ([.wait tv], .pollFailed en)
    | .timeout => ([.wait tv], .pollTimeout)
    | .ready =>
      match xioctl s.dqCalls with
      | none => ([.wait tv], .hung)
      | some c =>
        if c.r < 0 then
          if c.en = eagainCode then
            let p := poll nb rest
            (.wait tv :: p.1, p.2)
          else ([.wait tv], .dqbufFailed c.en)
        else if s.dqIndex < nb then
          match xioctl s.qbufCalls with
          | none => ([.wait tv, .callback s.dqIndex s.dqBytes], .hung)
          | some c2 =>
            if c2.r < 0 then
              ([.wait tv, .callback s.dqIndex s.dqBytes], .requeueFailed c2.en)
            else
              ([.wait tv, .callback s.dqIndex s.dqBytes, .requeue s.dqIndex],
               .success s.dqIndex s.dqBytes)
        else ([.wait tv], .assertFailed)

/-- Whether a poll event is a callback invocation. -/
def isCallbackEv : PollEvent → Bool
  | .callback _ _ => true
  | _ => false

/-- Whether a poll event is a buffer re-submission. -/
def isRequeueEv : PollEvent → Bool
  | .requeue _ => true
  | _ => false

/-! ## Session start (the subdevice constructor) -/

/-- Observable resource actions of a session's lifetime: opening the
device handle, mapping buffer `i`, queueing buffer `i` to the device,
enabling and disabling streaming, unmapping buffer `i`, and closing the
handle. -/
inductive Act where
  | opened
  | mapped (i : Nat)
  | queuedBuf (i : Nat)
  | streamOn
  | streamOff
  | unmapped (i : Nat)
  | closedFd
deriving DecidableEq, Repr

/-- The distinct failures the constructor can throw, with the settled
errno where the source embeds it in the thrown message. -/
inductive CErr where
  | statFailed
  | notCharDevice
  | openFailed
  | notV4L2
  | querycapFailed (en : Nat)
  | noVideoCapture
  | noStreaming
  | fmtFailed (forced : Bool) (en : Nat)
  | noMmapSupport
  | reqbufsFailed (en : Nat)
  | insufficientBuffers
  | querybufFailed (en : Nat)
  | mappingFailed
  | qbufFailed (en : Nat)
  | streamonFailed (en : Nat)
deriving DecidableEq, Repr

/-- The errno a constructor failure carries in its message, when the
source builds the message from `errno` via `throw_error`. -/
def cerrErrno : CErr → Option Nat
  | .querycapFailed en => some en
  | .fmtFailed _ en => some en
  | .reqbufsFailed en => some en
  | .querybufFailed en => some en
  | .qbufFailed en => some en
  | .streamonFailed en => some en
  | _ => none

/-- Everything the device (and the OS) answers during one constructor
run.  Each ioctl is described by its raw attempt sequence (fed through
`xioctl`) plus the data it reports when the settled attempt succeeds. -/
structure DeviceOracle where
  statOk : Bool
  isChr : Bool
  openOk : Bool
  querycap : List CallResult
  capVideoCapture : Bool
  capStreaming : Bool
  cropcap : List CallResult
  scrop : List CallResult
  fmtIoctl : List CallResult
  fmtReturned : PixFormat
  reqbufs : List CallResult
  grantFor : Nat → Nat
  querybuf : Nat → List CallResult
  bufLength : Nat → Nat
  mmapOk : Nat → Bool
  qbuf : Nat → List CallResult
  streamon : List CallResult

/-- The state a successfully constructed session holds: the adjusted
format, the number of granted buffers, and each buffer's length. -/
structure Session where
  fmt : PixFormat
  nbuffers : Nat
  bufLengths : List Nat
deriving DecidableEq, Repr

/-- How a constructor run ends. -/
inductive ConstructOutcome where
  | ok (s : Session)
  | err (e : CErr)
  | hung
deriving DecidableEq, Repr

/-- Result of one of the per-buffer loops. -/
inductive LoopRes where
  | done
  | failed (e : CErr)
  | stuck
deriving DecidableEq, Repr

/-- The buffer count the constructor requests via VIDIOC_REQBUFS
(line 126: `req.count = 4`). -/
def requestedBufferCount : Nat := 4

/-- Embedding of the buffer mapping loop (lines 139-155): for each
index, query the buffer descriptor through xioctl (failure throws),
then mmap it (MAP_FAILED throws).  The trace records each successful
mapping in order. -/
def mapLoop (o : DeviceOracle) : List Nat → List Act × LoopRes
  | [] => ([], .done)
  | i :: rest =>
    match xioctl (o.querybuf i) with
    | none => ([], .stuck)
    | some c =>
      if c.r < 0 then ([], .failed (.querybufFailed c.en))
      else if o.mmapOk i then
        let p := mapLoop o rest
        (.mapped i :: p.1, p.2)
      else ([], .failed .mappingFailed)

/-- Embedding of the initial queueing loop (lines 158-165): submit each
buffer to the device through xioctl; failure throws. -/
def qbufLoop (o : DeviceOracle) : List Nat → List Act × LoopRes
  | [] => ([], .done)
  | i :: rest =>
    match xioctl (o.qbuf i) with
    | none => ([], .stuck)
    | some c =>
      if c.r < 0 then ([], .failed (.qbufFailed c.en))
      else
        let p := qbufLoop o rest
        (.queuedBuf i :: p.1, p.2)

/-- The tail of the constructor once the buffer count is settled
(lines 139-168): map every granted buffer, submit each one to the
device, and enable streaming; any failure throws. -/
def startStreaming (o : DeviceOracle) (count : Nat) :
    List Act × ConstructOutcome :=
  match mapLoop o (List.range count) with
  | (trm, .failed e) => (trm, .err e)
  | (trm, .stuck) => (trm, .hung)
  | (trm, .done) =>
    match qbufLoop o (List.range count) with
    | (trq, .failed e) => (trm ++ trq, .err e)
    | (trq, .stuck) => (trm ++ trq, .hung)
    | (trq, .done) =>
      match xioctl o.streamon with
      | none => (trm ++ trq, .hung)
      | some cs =>
        if cs.r < 0 then (trm ++ trq, .err (.streamonFailed cs.en))
        else
          (trm ++ trq ++ [.streamOn],
           .ok { fmt := defensiveMin o.fmtReturned, nbuffers := count,
                 bufLengths := (List.range count).map o.bufLength })

/-- Embedding of the `subdevice` constructor (lines 53-169): validate
the path, open the handle, check capabilities, best-effort crop reset
(errors ignored), set or get the format, apply the defensive minimums,
request 4 buffers and require at least 2 granted, map every granted
buffer, queue them all, and enable streaming.  The trace lists the
resource actions performed before returning or throwing; note that a
throw from the constructor does not run the destructor, so no `unmapped`
or `closedFd` action ever appears in a constructor trace. -/
def construct (o : DeviceOracle) (forceFormat : Bool) :
    List Act × ConstructOutcome :=
  if ¬ o.statOk then ([], .err .statFailed)
  else if ¬ o.isChr then ([], .err .notCharDevice)
  else if ¬ o.openOk then ([], .err .openFailed)
  else
    let tr0 : List Act := [.opened]
    match xioctl o.querycap with
    | none => (tr0, .hung)
    | some c =>
      if c.r < 0 then
        (tr0, .err (if c.en = einvalCode then .notV4L2 else .querycapFailed c.en))
      else if ¬ o.capVideoCapture then (tr0, .err .noVideoCapture)
      else if ¬ o.capStreaming then (tr0, .err .noStreaming)
      else
        match xioctl o.cropcap with
        | none => (tr0, .hung)
        | some cc =>
          if cc.r = 0 ∧ (xioctl o.scrop).isNone then (tr0, .hung)
          else
            match xioctl o.fmtIoctl with
            | none => (tr0, .hung)
            | some cf =>
              if cf.r < 0 then (tr0, .err (.fmtFailed forceFormat cf.en))
              else
                match xioctl o.reqbufs with
                | none => (tr0, .hung)
                | some cr =>
                  if cr.r < 0 then
                    (tr0, .err (if cr.en = einvalCode then .noMmapSupport
                                else .reqbufsFailed cr.en))
                  else
                    let count := o.grantFor requestedBufferCount
                    if count < 2 then (tr0, .err .insufficientBuffers)
                    else
                      let p := startStreaming o count
                      (tr0 ++ p.1, p.2)

/-- Embedding of the `subdevice` destructor (lines 171-182): disable
streaming, unmap every buffer, close the handle — all best-effort, so
the action sequence is unconditional. -/
def destroy (nb : Nat) : List Act :=
  .streamOff :: (List.range nb).map Act.unmapped ++ [.closedFd]

/-- Whether a poll outcome is one where the loop failed (or never
settled) at the re-submission step, i.e. the call did not return
normally after the callback ran. -/
def requeueFatal : PollOutcome → Bool
  | .requeueFailed _ => true
  | .hung => true
  | _ => false

/-- The errno a poll failure carries in its thrown message. -/
def pollErrno : PollOutcome → Option Nat
  | .pollFailed en => some en
  | .dqbufFailed en => some en
  | .requeueFailed en => some en
  | _ => none

/-- A poll iteration whose `select` is interrupted by a signal. -/
def eintrStep : PollStep := ⟨.err eintrCode, [], 0, 0, []⟩

/-! ## Concrete inputs used to instantiate the theorems -/

/-- A raw ioctl attempt that succeeds immediately. -/
def okAttempt : CallResult := ⟨0, 0⟩

/-- A plane buffer holding all zeroes. -/
def zeroPlane : Nat → Nat := fun _ => 0

/-- A two-element packed input with depth samples 100 and 4000 and
intensity samples 10 and 250. -/
def sampleMem : Nat → z16y8_pixel :=
  fun n => if n = 0 then ⟨100, 10⟩ else ⟨4000, 250⟩

/-- A poll iteration that is ready at once and hands out buffer 1 with
99 produced bytes, with dequeue and re-queue both succeeding. -/
def readyStep : PollStep := ⟨.ready, [okAttempt], 1, 99, [okAttempt]⟩

/-- A poll iteration whose dequeue reports EAGAIN after readiness. -/
def eagainStep : PollStep := ⟨.ready, [⟨-1, eagainCode⟩], 0, 0, []⟩

/-- A poll iteration whose dequeue fails with a real error (EINVAL). -/
def dqFailStep : PollStep := ⟨.ready, [⟨-1, einvalCode⟩], 0, 0, []⟩

/-- A poll iteration where the re-queue of dequeued buffer 1 fails with
errno 5 (EIO). -/
def requeueFailStep : PollStep := ⟨.ready, [okAttempt], 1, 99, [⟨-1, 5⟩]⟩

/-- A device that answers every control call successfully at the first
attempt: grants all 4 requested buffers, reports a 640x480 geometry with
stride 1280 and image size 614400, and maps every buffer. -/
def happyOracle : DeviceOracle := {
  statOk := true, isChr := true, openOk := true,
  querycap := [okAttempt], capVideoCapture := true, capStreaming := true,
  cropcap := [okAttempt], scrop := [okAttempt],
  fmtIoctl := [okAttempt], fmtReturned := ⟨640, 480, 1280, 614400⟩,
  reqbufs := [okAttempt], grantFor := fun _ => 4,
  querybuf := fun _ => [okAttempt], bufLength := fun _ => 614400,
  mmapOk := fun _ => true,
  qbuf := fun _ => [okAttempt], streamon := [okAttempt] }

/-- Like `happyOracle` but the mmap of buffer 2 (the third of four)
fails. -/
def mmapFailOracle : DeviceOracle :=
  { happyOracle with mmapOk := fun i => decide (i ≠ 2) }

/-- Like `happyOracle` but the device grants only 2 buffer slots. -/
def twoBufferOracle : DeviceOracle :=
  { happyOracle with grantFor := fun _ => 2 }

/-! ## Helper lemmas -/

theorem xioctl_skips_eintr (l : List CallResult) :
    xioctl (eintrAttempt :: l) = xioctl l := by
  simp [xioctl, eintrAttempt]

theorem xioctl_settled_not_eintr (l : List CallResult) (c : CallResult)
    (h : xioctl l = some c) (hr : c.r < 0) : c.en ≠ eintrCode := by
  induction l with
  | nil => simp [xioctl] at h
  | cons a rest ih =>
    by_cases ha : a.r < 0 ∧ a.en = eintrCode
    · exact ih (by simpa [xioctl, ha] using h)
    · have : a = c := by simpa [xioctl, ha] using h
      subst this
      intro he
      exact ha ⟨hr, he⟩

theorem xioctl_replicate_eintr (n : Nat) (l : List CallResult) :
    xioctl (List.replicate n eintrAttempt ++ l) = xioctl l := by
  induction n with
  | zero => simp
  | succ k ih => simpa [List.replicate_succ, xioctl_skips_eintr] using ih

theorem z16y8UnpackLoop_z (mem : Nat → z16y8_pixel) (n : Nat)
    (zbuf ybuf : Nat → Nat) (i : Nat) (hi : i < n) :
    (z16y8UnpackLoop mem n zbuf ybuf).1 i = (mem i).z := by
  induction n generalizing zbuf ybuf with
  | zero => omega
  | succ k ih =>
    by_cases hik : i = k
    · subst hik; simp [z16y8UnpackLoop, planeSet]
    · have hk : i < k := by omega
      simp [z16y8UnpackLoop, planeSet, hik, ih zbuf ybuf hk]

theorem z16y8UnpackLoop_y (mem : Nat → z16y8_pixel) (n : Nat)
    (zbuf ybuf : Nat → Nat) (i : Nat) (hi : i < n) :
    (z16y8UnpackLoop mem n zbuf ybuf).2 i = (mem i).y := by
  induction n generalizing zbuf ybuf with
  | zero => omega
  | succ k ih =>
    by_cases hik : i = k
    · subst hik; simp [z16y8UnpackLoop, planeSet]
    · have hk : i < k := by omega
      simp [z16y8UnpackLoop, planeSet, hik, ih zbuf ybuf hk]

theorem mapLoop_all_ok (o : DeviceOracle) (l : List Nat)
    (h : ∀ i ∈ l, (∃ cq, xioctl (o.querybuf i) = some cq ∧ ¬ cq.r < 0) ∧
      o.mmapOk i = true) :
    mapLoop o l = (l.map Act.mapped, .done) := by
  induction l with
  | nil => simp [mapLoop]
  | cons a rest ih =>
    obtain ⟨⟨cq, hcq, hr⟩, hm⟩ := h a (by simp)
    simp [mapLoop, hcq, hr, hm, ih fun i hi => h i (by simp [hi])]

theorem qbufLoop_all_ok (o : DeviceOracle) (l : List Nat)
    (h : ∀ i ∈ l, ∃ cb, xioctl (o.qbuf i) = some cb ∧ ¬ cb.r < 0) :
    qbufLoop o l = (l.map Act.queuedBuf, .done) := by
  induction l with
  | nil => simp [qbufLoop]
  | cons a rest ih =>
    obtain ⟨cb, hcb, hr⟩ := h a (by simp)
    simp [qbufLoop, hcb, hr, ih fun i hi => h i (by simp [hi])]

theorem mapLoop_append_ok (o : DeviceOracle) (l1 l2 : List Nat)
    (h : ∀ i ∈ l1, (∃ cq, xioctl (o.querybuf i) = some cq ∧ ¬ cq.r < 0) ∧
      o.mmapOk i = true) :
    mapLoop o (l1 ++ l2) =
      (l1.map Act.mapped ++ (mapLoop o l2).1, (mapLoop o l2).2) := by
  induction l1 with
  | nil => simp
  | cons a rest ih =>
    obtain ⟨⟨cq, hcq, hr⟩, hm⟩ := h a (by simp)
    simp [mapLoop, hcq, hr, hm, ih fun i hi => h i (by simp [hi])]

theorem mapLoop_err_no_eintr (o : DeviceOracle) (l : List Nat)
    (tr : List Act) (e : CErr) (h : mapLoop o l = (tr, .failed e)) :
    cerrErrno e ≠ some eintrCode := by
  induction l generalizing tr with
  | nil => simp [mapLoop] at h
  | cons a rest ih =>
    simp only [mapLoop] at h
    cases hq : xioctl (o.querybuf a) with
    | none => rw [hq] at h; simp at h
    | some c =>
      rw [hq] at h
      by_cases hr : c.r < 0
      · simp only [hr, if_true, Prod.mk.injEq, LoopRes.failed.injEq] at h
        rcases h with ⟨-, rfl⟩
        simpa [cerrErrno] using xioctl_settled_not_eintr _ c hq hr
      · by_cases hm : o.mmapOk a
        · simp only [hr, hm, if_false, if_true, Prod.mk.injEq] at h
          exact ih _ (by rw [← h.2])
        · simp only [hr, hm, if_false, Prod.mk.injEq, LoopRes.failed.injEq] at h
          rcases h with ⟨-, rfl⟩
          simp [cerrErrno]

theorem qbufLoop_err_no_eintr (o : DeviceOracle) (l : List Nat)
    (tr : List Act) (e : CErr) (h : qbufLoop o l = (tr, .failed e)) :
    cerrErrno e ≠ some eintrCode := by
  induction l generalizing tr with
  | nil => simp [qbufLoop] at h
  | cons a rest ih =>
    simp only [qbufLoop] at h
    cases hq : xioctl (o.qbuf a) with
    | none => rw [hq] at h; simp at h
    | some c =>
      rw [hq] at h
      by_cases hr : c.r < 0
      · simp only [hr, if_true, Prod.mk.injEq, LoopRes.failed.injEq] at h
        rcases h with ⟨-, rfl⟩
        simpa [cerrErrno] using xioctl_settled_not_eintr _ c hq hr
      · simp only [hr, if_false, Prod.mk.injEq] at h
        exact ih _ (by rw [← h.2])

theorem startStreaming_err_no_eintr (o : DeviceOracle) (count : Nat)
    (tr : List Act) (e : CErr)
    (h : startStreaming o count = (tr, .err e)) :
    cerrErrno e ≠ some eintrCode := by
  rcases hm : mapLoop o (List.range count) with ⟨trm, lrm⟩
  cases lrm with
  | failed em =>
    simp only [startStreaming, hm, Prod.mk.injEq, ConstructOutcome.err.injEq] at h
    rcases h with ⟨-, rfl⟩
    exact mapLoop_err_no_eintr o _ trm em hm
  | stuck => simp [startStreaming, hm] at h
  | done =>
    rcases hq : qbufLoop o (List.range count) with ⟨trq, lrq⟩
    cases lrq with
    | failed eq' =>
      simp only [startStreaming, hm, hq, Prod.mk.injEq,
        ConstructOutcome.err.injEq] at h
      rcases h with ⟨-, rfl⟩
      exact qbufLoop_err_no_eintr o _ trq eq' hq
    | stuck => simp [startStreaming, hm, hq] at h
    | done =>
      cases hs : xioctl o.streamon with
      | none => simp [startStreaming, hm, hq, hs] at h
      | some cs =>
        by_cases hr : cs.r < 0
        · simp only [startStreaming, hm, hq, hs, hr, if_true, Prod.mk.injEq,
            ConstructOutcome.err.injEq] at h
          rcases h with ⟨-, rfl⟩
          simpa [cerrErrno] using xioctl_settled_not_eintr _ _ hs hr
        · simp [startStreaming, hm, hq, hs, hr] at h

theorem construct_err_no_eintr (o : DeviceOracle) (ff : Bool)
    (tr : List Act) (e : CErr) (h : construct o ff = (tr, .err e)) :
    cerrErrno e ≠ some eintrCode := by
  by_cases hst : o.statOk
  case neg =>
    simp only [construct, hst, Bool.not_eq_true, if_true, Prod.mk.injEq,
      ConstructOutcome.err.injEq] at h
    rcases h with ⟨-, rfl⟩
    simp [cerrErrno]
  by_cases hchr : o.isChr
  case neg =>
    simp only [construct, hst, hchr, Bool.not_eq_true, if_true, if_false,
      Prod.mk.injEq, ConstructOutcome.err.injEq] at h
    rcases h with ⟨-, rfl⟩
    simp [cerrErrno]
  by_cases hopen : o.openOk
  case neg =>
    simp only [construct, hst, hchr, hopen, Bool.not_eq_true, if_true,
      if_false, Prod.mk.injEq, ConstructOutcome.err.injEq] at h
    rcases h with ⟨-, rfl⟩
    simp [cerrErrno]
  cases hqc : xioctl o.querycap with
  | none => simp [construct, hst, hchr, hopen, hqc] at h
  | some c1 =>
  by_cases hr1 : c1.r < 0
  case pos =>
    by_cases he1 : c1.en = einvalCode
    · simp only [construct, hst, hchr, hopen, hqc, hr1, he1, Prod.mk.injEq, ConstructOutcome.err.injEq] at h
      rcases h with ⟨-, rfl⟩
      simp [cerrErrno]
    · simp only [construct, hst, hchr, hopen, hqc, hr1, he1, Prod.mk.injEq, ConstructOutcome.err.injEq] at h
      rcases h with ⟨-, rfl⟩
      simpa [cerrErrno] using xioctl_settled_not_eintr _ _ hqc hr1
  by_cases hcap : o.capVideoCapture
  case neg =>
    simp only [construct, hst, hchr, hopen, hqc, hr1, hcap,
      Bool.not_eq_true, Prod.mk.injEq, ConstructOutcome.err.injEq] at h
    rcases h with ⟨-, rfl⟩
    simp [cerrErrno]
  by_cases hstr : o.capStreaming
  case neg =>
    simp only [construct, hst, hchr, hopen, hqc, hr1, hcap, hstr,
      Bool.not_eq_true, Prod.mk.injEq, ConstructOutcome.err.injEq] at h
    rcases h with ⟨-, rfl⟩
    simp [cerrErrno]
  cases hcc : xioctl o.cropcap with
  | none => simp [construct, hst, hchr, hopen, hqc, hr1, hcap, hstr, hcc] at h
  | some cc =>
  by_cases hcrop : cc.r = 0 ∧ xioctl o.scrop = none
  case pos =>
    simp [construct, hst, hchr, hopen, hqc, hr1, hcap, hstr, hcc, hcrop] at h
  cases hcf : xioctl o.fmtIoctl with
  | none =>
    simp [construct, hst, hchr, hopen, hqc, hr1, hcap, hstr, hcc, hcrop,
      hcf] at h
  | some cf =>
  by_cases hrf : cf.r < 0
  case pos =>
    simp [construct, hst, hchr, hopen, hqc, hr1, hcap, hstr, hcc, hcrop,
      hcf, hrf] at h
    rcases h with ⟨-, rfl⟩
    simpa [cerrErrno] using xioctl_settled_not_eintr _ _ hcf hrf
  cases hcr : xioctl o.reqbufs with
  | none =>
    simp [construct, hst, hchr, hopen, hqc, hr1, hcap, hstr, hcc, hcrop,
      hcf, hrf, hcr] at h
  | some cr =>
  by_cases hrr : cr.r < 0
  case pos =>
    by_cases her : cr.en = einvalCode
    · simp [construct, hst, hchr, hopen, hqc, hr1, hcap, hstr, hcc,
        hcrop, hcf, hrf, hcr, hrr, her] at h
      rcases h with ⟨-, rfl⟩
      simp [cerrErrno]
    · simp [construct, hst, hchr, hopen, hqc, hr1, hcap, hstr, hcc,
        hcrop, hcf, hrf, hcr, hrr, her] at h
      rcases h with ⟨-, rfl⟩
      simpa [cerrErrno] using xioctl_settled_not_eintr _ _ hcr hrr
  by_cases hcnt : o.grantFor requestedBufferCount < 2
  case pos =>
    simp [construct, hst, hchr, hopen, hqc, hr1, hcap, hstr, hcc, hcrop,
      hcf, hrf, hcr, hrr, hcnt] at h
    rcases h with ⟨-, rfl⟩
    simp [cerrErrno]
  simp [construct, hst, hchr, hopen, hqc, hr1, hcap, hstr, hcc, hcrop,
    hcf, hrf, hcr, hrr, hcnt] at h
  exact startStreaming_err_no_eintr o _ _ e (by rw [← h.2])

theorem poll_no_eintr (nb : Nat) (steps : List PollStep)
    (tr : List PollEvent) (out : PollOutcome)
    (h : poll nb steps = (tr, out)) : pollErrno out ≠ some eintrCode := by
  induction steps generalizing tr out with
  | nil =>
    simp only [poll, Prod.mk.injEq] at h
    obtain ⟨-, rfl⟩ := h
    simp [pollErrno]
  | cons s rest ih =>
    obtain ⟨sel, dqC, dqI, dqB, qbC⟩ := s
    cases sel with
    | err en =>
      by_cases he : en = eintrCode
      · simp only [poll, he, if_true, Prod.mk.injEq] at h
        obtain ⟨-, rfl⟩ := h
        exact ih _ _ rfl
      · simp only [poll, he, if_false, Prod.mk.injEq] at h
        obtain ⟨-, rfl⟩ := h
        simpa [pollErrno] using he
    | timeout =>
      simp only [poll, Prod.mk.injEq] at h
      obtain ⟨-, rfl⟩ := h
      simp [pollErrno]
    | ready =>
      simp only [poll] at h
      cases hdq : xioctl dqC with
      | none =>
        rw [hdq] at h
        simp only [Prod.mk.injEq] at h
        obtain ⟨-, rfl⟩ := h
        simp [pollErrno]
      | some c =>
        rw [hdq] at h
        by_cases hr : c.r < 0
        · by_cases hea : c.en = eagainCode
          · simp only [hr, hea, if_true, Prod.mk.injEq] at h
            obtain ⟨-, rfl⟩ := h
            exact ih _ _ rfl
          · simp only [hr, hea, if_true, if_false, Prod.mk.injEq] at h
            obtain ⟨-, rfl⟩ := h
            simpa [pollErrno] using xioctl_settled_not_eintr _ _ hdq hr
        · by_cases hi : dqI < nb
          · cases hqb : xioctl qbC with
            | none =>
              simp only [hr, hi, hqb, if_false, if_true, Prod.mk.injEq] at h
              obtain ⟨-, rfl⟩ := h
              simp [pollErrno]
            | some c2 =>
              by_cases hr2 : c2.r < 0
              · simp only [hr, hi, hqb, hr2, if_false, if_true, Prod.mk.injEq] at h
                obtain ⟨-, rfl⟩ := h
                simpa [pollErrno] using xioctl_settled_not_eintr _ _ hqb hr2
              · simp only [hr, hi, hqb, hr2, if_false, if_true, Prod.mk.injEq] at h
                obtain ⟨-, rfl⟩ := h
                simp [pollErrno]
          · simp only [hr, hi, if_false, Prod.mk.injEq] at h
            obtain ⟨-, rfl⟩ := h
            simp [pollErrno]

/-! ## Claim theorems -/

/-- Claim C2: for an input of exactly width*height packed depth+intensity
elements, the combined-sensor decode loop places element i's depth
sample at index i of the depth plane and element i's intensity sample at
index i of the intensity plane, for every i below width*height. -/
theorem combined_decode_plane_placement (w h : Nat) (mem : Nat → z16y8_pixel)
    (zbuf ybuf : Nat → Nat) (i : Nat) (hi : i < w * h) :
    (z16y8UnpackLoop mem (w * h) zbuf ybuf).1 i = (mem i).z ∧
    (z16y8UnpackLoop mem (w * h) zbuf ybuf).2 i = (mem i).y :=
  ⟨z16y8UnpackLoop_z mem (w * h) zbuf ybuf i hi,
   z16y8UnpackLoop_y mem (w * h) zbuf ybuf i hi⟩

/-- Witness for C2: the 2-element input with depth samples 100 and 4000
and intensity samples 10 and 250 decodes, over a 2x1 geometry, to a
depth plane starting 100, 4000 and an intensity plane starting 10, 250. -/
theorem combined_decode_plane_placement_witness :
    ((z16y8UnpackLoop sampleMem (2 * 1) zeroPlane zeroPlane).1 0 = 100 ∧
     (z16y8UnpackLoop sampleMem (2 * 1) zeroPlane zeroPlane).2 0 = 10) ∧
    ((z16y8UnpackLoop sampleMem (2 * 1) zeroPlane zeroPlane).1 1 = 4000 ∧
     (z16y8UnpackLoop sampleMem (2 * 1) zeroPlane zeroPlane).2 1 = 250) :=
  ⟨combined_decode_plane_placement 2 1 sampleMem zeroPlane zeroPlane 0 (by decide),
   combined_decode_plane_placement 2 1 sampleMem zeroPlane zeroPlane 1 (by decide)⟩

/-- Claim C7: the interleaved-color decode is a byte-identical
pass-through — for every input buffer of N bytes handed to the dev0
callback, the first N bytes of the color destination buffer equal the
input bytes exactly. -/
theorem color_passthrough (yuy2 data : List Nat) :
    (dev0Callback yuy2 data data.length).take data.length = data := by
  simp [dev0Callback, memcpyBytes, List.take_append_of_le_length]

/-- Claim C10: the combined depth+intensity callback ignores its
reported produced-byte-count argument — its result is the same for any
two reported sizes — and it unconditionally overwrites every one of the
320*240 entries of both planes with the corresponding packed element
read from the buffer, with no length guard. -/
theorem dev1_callback_ignores_size (mem : Nat → z16y8_pixel)
    (size size' : Nat) (zbuf ybuf : Nat → Nat) (i : Nat)
    (hi : i < 320 * 240) :
    dev1Callback mem size zbuf ybuf = dev1Callback mem size' zbuf ybuf ∧
    (dev1Callback mem size zbuf ybuf).1 i = (mem i).z ∧
    (dev1Callback mem size zbuf ybuf).2 i = (mem i).y :=
  ⟨rfl,
   z16y8UnpackLoop_z mem dev1ElemCount zbuf ybuf i hi,
   z16y8UnpackLoop_y mem dev1ElemCount zbuf ybuf i hi⟩

/-- Witness for C10: with a reported byte count of 7 — far below the
230400 bytes 320*240 elements occupy — the callback still produces the
same planes as with the full count, and still overwrites plane entry
76799 (the last of 320*240) from the packed input. -/
theorem dev1_callback_ignores_size_witness :
    dev1Callback sampleMem 7 zeroPlane zeroPlane =
      dev1Callback sampleMem 230400 zeroPlane zeroPlane ∧
    (dev1Callback sampleMem 7 zeroPlane zeroPlane).1 76799 = 4000 ∧
    (dev1Callback sampleMem 7 zeroPlane zeroPlane).2 76799 = 250 :=
  dev1_callback_ignores_size sampleMem 7 230400 zeroPlane zeroPlane 76799
    (by decide)

/-- Claim C3: after the defensive-minimum step, the recorded stride is
at least 2*width and the recorded image size at least stride*height;
under-reported values are raised to exactly the minimum and values
already at or above it are unchanged.  The two hypotheses confine the
32-bit products of the source to the range where they do not wrap. -/
theorem defensive_min_bounds (f : PixFormat)
    (hw : f.width * 2 < u32Mod)
    (hs : max f.bytesperline (f.width * 2) * f.height < u32Mod) :
    2 * f.width ≤ (defensiveMin f).bytesperline ∧
    (defensiveMin f).bytesperline * f.height ≤ (defensiveMin f).sizeimage ∧
    (f.bytesperline < 2 * f.width →
      (defensiveMin f).bytesperline = 2 * f.width) ∧
    (2 * f.width ≤ f.bytesperline →
      (defensiveMin f).bytesperline = f.bytesperline) ∧
    (f.sizeimage < (defensiveMin f).bytesperline * f.height →
      (defensiveMin f).sizeimage = (defensiveMin f).bytesperline * f.height) ∧
    ((defensiveMin f).bytesperline * f.height ≤ f.sizeimage →
      (defensiveMin f).sizeimage = f.sizeimage) := by
  obtain ⟨w, h, bpl, sz⟩ := f
  simp only at hw hs
  simp only [defensiveMin, Nat.mod_eq_of_lt hw]
  by_cases h1 : bpl < w * 2
  · have hlt : w * 2 * h < u32Mod :=
      lt_of_le_of_lt (Nat.mul_le_mul_right h (le_max_right bpl (w * 2))) hs
    simp only [h1, if_true, Nat.mod_eq_of_lt hlt]
    by_cases h2 : sz < w * 2 * h <;> simp [h2] <;> omega
  · have hlt : bpl * h < u32Mod :=
      lt_of_le_of_lt (Nat.mul_le_mul_right h (le_max_left bpl (w * 2))) hs
    simp only [h1, if_false, Nat.mod_eq_of_lt hlt]
    by_cases h2 : sz < bpl * h <;> simp [h2] <;> omega

/-- Claim C4: session start requests a pool of exactly 4 buffers, and
for every count the device grants (with the earlier start steps
succeeding): a grant below 2 makes start fail with the
insufficient-buffers error, while a grant of exactly 2 passes the
buffer-count check and — when the per-buffer steps and stream-on also
succeed — start completes with a 2-buffer session. -/
theorem reqbufs_boundary (o : DeviceOracle) (ff : Bool)
    (c1 cc cf cr : CallResult)
    (h1 : o.statOk = true) (h2 : o.isChr = true) (h3 : o.openOk = true)
    (h4 : xioctl o.querycap = some c1) (h5 : ¬ c1.r < 0)
    (h6 : o.capVideoCapture = true) (h7 : o.capStreaming = true)
    (h8 : xioctl o.cropcap = some cc)
    (h9 : ¬ (cc.r = 0 ∧ xioctl o.scrop = none))
    (h10 : xioctl o.fmtIoctl = some cf) (h11 : ¬ cf.r < 0)
    (h12 : xioctl o.reqbufs = some cr) (h13 : ¬ cr.r < 0) :
    requestedBufferCount = 4 ∧
    (o.grantFor requestedBufferCount < 2 →
      (construct o ff).2 = .err .insufficientBuffers) ∧
    (o.grantFor requestedBufferCount = 2 →
      (∀ i, i < 2 → (∃ cq, xioctl (o.querybuf i) = some cq ∧ ¬ cq.r < 0) ∧
        o.mmapOk i = true) →
      (∀ i, i < 2 → ∃ cb, xioctl (o.qbuf i) = some cb ∧ ¬ cb.r < 0) →
      (∃ cs, xioctl o.streamon = some cs ∧ ¬ cs.r < 0) →
      (construct o ff).2 =
        .ok ⟨defensiveMin o.fmtReturned, 2, (List.range 2).map o.bufLength⟩) := by
  refine ⟨rfl, ?_, ?_⟩
  · intro hlt
    have hlt4 : o.grantFor 4 < 2 := hlt
    simp [construct, h1, h2, h3, h4, h5, h6, h7, h8, h9, h10, h11, h12, h13,
      hlt, hlt4]
  · intro hg hmap hqb hso
    have hg4 : o.grantFor 4 = 2 := hg
    obtain ⟨cs, hcs, hcsr⟩ := hso
    have hml : mapLoop o (List.range 2) = ((List.range 2).map Act.mapped, .done) :=
      mapLoop_all_ok o (List.range 2) fun i hi =>
        hmap i (by simpa using hi)
    have hql : qbufLoop o (List.range 2) =
        ((List.range 2).map Act.queuedBuf, .done) :=
      qbufLoop_all_ok o (List.range 2) fun i hi =>
        hqb i (by simpa using hi)
    simp [construct, startStreaming, h1, h2, h3, h4, h5, h6, h7, h8, h9,
      h10, h11, h12, h13, hg, hg4, hml, hql, hcs, hcsr]

/-- Witness for C4: a device that grants 2 of the 4 requested buffers
and succeeds at every step yields a 2-buffer session, and the
insufficient-buffers implication holds vacuously. -/
theorem reqbufs_boundary_witness :
    requestedBufferCount = 4 ∧
    (twoBufferOracle.grantFor requestedBufferCount < 2 →
      (construct twoBufferOracle true).2 = .err .insufficientBuffers) ∧
    (twoBufferOracle.grantFor requestedBufferCount = 2 →
      (∀ i, i < 2 →
        (∃ cq, xioctl (twoBufferOracle.querybuf i) = some cq ∧ ¬ cq.r < 0) ∧
        twoBufferOracle.mmapOk i = true) →
      (∀ i, i < 2 →
        ∃ cb, xioctl (twoBufferOracle.qbuf i) = some cb ∧ ¬ cb.r < 0) →
      (∃ cs, xioctl twoBufferOracle.streamon = some cs ∧ ¬ cs.r < 0) →
      (construct twoBufferOracle true).2 =
        .ok ⟨defensiveMin twoBufferOracle.fmtReturned, 2,
             (List.range 2).map twoBufferOracle.bufLength⟩) :=
  reqbufs_boundary twoBufferOracle true okAttempt okAttempt okAttempt okAttempt
    rfl rfl rfl (by decide) (by decide) rfl rfl (by decide) (by decide)
    (by decide) (by decide) (by decide) (by decide)

/-- Counterexample to claim C6: when the mmap of buffer 2 (the third of
four) fails during start, the run ends with the mapping error while
buffers 0 and 1 were mapped, yet the trace contains no unmapping of them
and no close of the device handle — a throwing C++ constructor never
runs the destructor, so the failed start withholds the resources. -/
theorem failed_start_leaves_resources_cex :
    construct mmapFailOracle false =
      ([.opened, .mapped 0, .mapped 1], .err .mappingFailed) ∧
    Act.mapped 0 ∈ (construct mmapFailOracle false).1 ∧
    Act.mapped 1 ∈ (construct mmapFailOracle false).1 ∧
    Act.unmapped 0 ∉ (construct mmapFailOracle false).1 ∧
    Act.unmapped 1 ∉ (construct mmapFailOracle false).1 ∧
    Act.closedFd ∉ (construct mmapFailOracle false).1 := by decide

/-- Claim C6 as amended: if a buffer-mapping step fails during session
start (after `k` buffers were already mapped), the start fails with the
mapping error, but it performs no teardown — the `k` previously mapped
regions stay mapped and the device handle stays open; every mapping is
unmapped and the handle closed only by the destructor of a fully
constructed session (`destroy`). -/
theorem failed_start_no_teardown (o : DeviceOracle) (ff : Bool) (k : Nat)
    (c1 cc cf cr cq : CallResult)
    (h1 : o.statOk = true) (h2 : o.isChr = true) (h3 : o.openOk = true)
    (h4 : xioctl o.querycap = some c1) (h5 : ¬ c1.r < 0)
    (h6 : o.capVideoCapture = true) (h7 : o.capStreaming = true)
    (h8 : xioctl o.cropcap = some cc)
    (h9 : ¬ (cc.r = 0 ∧ xioctl o.scrop = none))
    (h10 : xioctl o.fmtIoctl = some cf) (h11 : ¬ cf.r < 0)
    (h12 : xioctl o.reqbufs = some cr) (h13 : ¬ cr.r < 0)
    (h14 : 2 ≤ o.grantFor requestedBufferCount)
    (hk : k < o.grantFor requestedBufferCount)
    (hgood : ∀ i, i < k →
      (∃ cqi, xioctl (o.querybuf i) = some cqi ∧ ¬ cqi.r < 0) ∧
      o.mmapOk i = true)
    (hqk : xioctl (o.querybuf k) = some cq) (hqkr : ¬ cq.r < 0)
    (hmk : o.mmapOk k = false) :
    construct o ff =
      (.opened :: (List.range k).map Act.mapped, .err .mappingFailed) ∧
    (∀ i, Act.unmapped i ∉ (construct o ff).1) ∧
    Act.closedFd ∉ (construct o ff).1 ∧
    (∀ i, i < k → Act.mapped i ∈ (construct o ff).1) ∧
    (∀ i, i < o.grantFor requestedBufferCount →
      Act.unmapped i ∈ destroy (o.grantFor requestedBufferCount)) ∧
    Act.closedFd ∈ destroy (o.grantFor requestedBufferCount) := by
  have h14' : 2 ≤ o.grantFor 4 := h14
  have hk4 : k < o.grantFor 4 := hk
  have hnl : ¬ o.grantFor 4 < 2 := by omega
  have hhead : mapLoop o
      (k :: (List.range (o.grantFor 4 - k - 1)).map (fun x => k + Nat.succ x)) =
      ([], .failed .mappingFailed) := by
    simp [mapLoop, hqk, hqkr, hmk]
  have hsplit : List.range (o.grantFor 4) = List.range k ++
      (k :: (List.range (o.grantFor 4 - k - 1)).map (fun x => k + Nat.succ x)) := by
    have hadd : o.grantFor 4 = k + (o.grantFor 4 - k) := by omega
    rw [hadd, List.range_add]
    congr 1
    have hm : o.grantFor 4 - k = (o.grantFor 4 - k - 1) + 1 := by omega
    rw [hm, List.range_succ_eq_map]
    simp
  have hml : mapLoop o (List.range (o.grantFor 4)) =
      ((List.range k).map Act.mapped, .failed .mappingFailed) := by
    rw [hsplit, mapLoop_append_ok o _ _ fun i hi =>
      hgood i (by simpa using hi), hhead]
    simp
  have hmain : construct o ff =
      (.opened :: (List.range k).map Act.mapped, .err .mappingFailed) := by
    simp [construct, startStreaming, h1, h2, h3, h4, h5, h6, h7, h8, h9,
      h10, h11, h12, h13, requestedBufferCount, hnl, hml]
  refine ⟨hmain, ?_, ?_, ?_, ?_, ?_⟩
  · intro i
    rw [hmain]
    simp
  · rw [hmain]
    simp
  · intro i hi
    rw [hmain]
    simp [hi]
  · intro i hi
    simp [destroy, List.mem_map]
    omega
  · simp [destroy]

/-- Witness for the amended C6: with the concrete device whose third
mmap fails, start fails with the mapping error, buffers 0 and 1 stay
mapped with no unmap or close in the trace, and the destructor of a
4-buffer session would unmap all four and close the handle. -/
theorem failed_start_no_teardown_witness :
    construct mmapFailOracle false =
      (.opened :: (List.range 2).map Act.mapped, .err .mappingFailed) ∧
    (∀ i, Act.unmapped i ∉ (construct mmapFailOracle false).1) ∧
    Act.closedFd ∉ (construct mmapFailOracle false).1 ∧
    (∀ i, i < 2 → Act.mapped i ∈ (construct mmapFailOracle false).1) ∧
    (∀ i, i < mmapFailOracle.grantFor requestedBufferCount →
      Act.unmapped i ∈ destroy (mmapFailOracle.grantFor requestedBufferCount)) ∧
    Act.closedFd ∈ destroy (mmapFailOracle.grantFor requestedBufferCount) :=
  failed_start_no_teardown mmapFailOracle false 2
    okAttempt okAttempt okAttempt okAttempt okAttempt
    rfl rfl rfl (by decide) (by decide) rfl rfl (by decide) (by decide)
    (by decide) (by decide) (by decide) (by decide)
    (by decide) (by decide)
    (fun i hi => ⟨⟨okAttempt, rfl, by decide⟩, by
      simp only [mmapFailOracle, happyOracle, decide_eq_true_eq]
      omega⟩)
    (by decide) (by decide) (by decide)

/-- Claim C1: whenever `poll` succeeds, its event trace shows the
supplied callback invoked exactly once, with the dequeued buffer and its
produced byte count, and the very last two events are that callback
followed by the re-submission of the same buffer — so the buffer is back
in circulation before `poll` returns.  Moreover a trace in which the
callback ran but no re-submission happened can only belong to a run that
ended at the re-queue step (fatal re-queue failure or a never-settling
re-queue retry), never to a normal return. -/
theorem poll_success_recirculates (nb : Nat) (steps : List PollStep)
    (tr : List PollEvent) (out : PollOutcome)
    (hp : poll nb steps = (tr, out)) :
    (∀ i b, out = .success i b →
      tr.filter isCallbackEv = [.callback i b] ∧
      ∃ pre, tr = pre ++ [.callback i b, .requeue i]) ∧
    (tr.filter isCallbackEv ≠ [] → tr.filter isRequeueEv = [] →
      requeueFatal out = true) := by
  induction steps generalizing tr out with
  | nil =>
    simp only [poll, Prod.mk.injEq] at hp
    obtain ⟨rfl, rfl⟩ := hp
    constructor
    · intro i b hsucc; cases hsucc
    · intro hne _; simp at hne
  | cons s rest ih =>
    obtain ⟨sel, dqC, dqI, dqB, qbC⟩ := s
    cases sel with
    | err en =>
      by_cases he : en = eintrCode
      · simp only [poll, he, if_true, Prod.mk.injEq] at hp
        obtain ⟨rfl, rfl⟩ := hp
        obtain ⟨ha, hb⟩ := ih (poll nb rest).1 (poll nb rest).2 rfl
        constructor
        · intro i b hsucc
          obtain ⟨hfa, pre, hpre⟩ := ha i b hsucc
          exact ⟨by simp [isCallbackEv, hfa],
                 ⟨.wait 2 :: pre, by simp [hpre]⟩⟩
        · intro hne hreq
          exact hb (by simpa [isCallbackEv] using hne)
            (by simpa [isRequeueEv] using hreq)
      · simp only [poll, he, if_false, Prod.mk.injEq] at hp
        obtain ⟨rfl, rfl⟩ := hp
        constructor
        · intro i b hsucc; cases hsucc
        · intro hne _; simp [isCallbackEv] at hne
    | timeout =>
      simp only [poll, Prod.mk.injEq] at hp
      obtain ⟨rfl, rfl⟩ := hp
      constructor
      · intro i b hsucc; cases hsucc
      · intro hne _; simp [isCallbackEv] at hne
    | ready =>
      simp only [poll] at hp
      cases hdq : xioctl dqC with
      | none =>
        rw [hdq] at hp
        simp only [Prod.mk.injEq] at hp
        obtain ⟨rfl, rfl⟩ := hp
        constructor
        · intro i b hsucc; cases hsucc
        · intro hne _; simp [isCallbackEv] at hne
      | some c =>
        rw [hdq] at hp
        by_cases hr : c.r < 0
        · by_cases hea : c.en = eagainCode
          · simp only [hr, hea, if_true, Prod.mk.injEq] at hp
            obtain ⟨rfl, rfl⟩ := hp
            obtain ⟨ha, hb⟩ := ih (poll nb rest).1 (poll nb rest).2 rfl
            constructor
            · intro i b hsucc
              obtain ⟨hfa, pre, hpre⟩ := ha i b hsucc
              exact ⟨by simp [isCallbackEv, hfa],
                     ⟨.wait 2 :: pre, by simp [hpre]⟩⟩
            · intro hne hreq
              exact hb (by simpa [isCallbackEv] using hne)
                (by simpa [isRequeueEv] using hreq)
          · simp only [hr, hea, if_true, if_false, Prod.mk.injEq] at hp
            obtain ⟨rfl, rfl⟩ := hp
            constructor
            · intro i b hsucc; cases hsucc
            · intro hne _; simp [isCallbackEv] at hne
        · by_cases hi : dqI < nb
          · cases hqb : xioctl qbC with
            | none =>
              simp only [hr, hi, hqb, if_false, if_true, Prod.mk.injEq] at hp
              obtain ⟨rfl, rfl⟩ := hp
              constructor
              · intro i b hsucc; cases hsucc
              · intro _ _; rfl
            | some c2 =>
              by_cases hr2 : c2.r < 0
              · simp only [hr, hi, hqb, hr2, if_false, if_true, Prod.mk.injEq] at hp
                obtain ⟨rfl, rfl⟩ := hp
                constructor
                · intro i b hsucc; cases hsucc
                · intro _ _; rfl
              · simp only [hr, hi, hqb, hr2, if_false, if_true, Prod.mk.injEq] at hp
                obtain ⟨rfl, rfl⟩ := hp
                constructor
                · intro i b hsucc
                  cases hsucc
                  exact ⟨by simp [isCallbackEv],
                         ⟨[.wait 2], by simp⟩⟩
                · intro _ hreq; simp [isRequeueEv] at hreq
          · simp only [hr, hi, if_false, Prod.mk.injEq] at hp
            obtain ⟨rfl, rfl⟩ := hp
            constructor
            · intro i b hsucc; cases hsucc
            · intro hne _; simp [isCallbackEv] at hne

/-- Witness for C1: a run that waits once, gets EAGAIN from the dequeue,
waits again and then successfully dequeues buffer 1 with 99 produced
bytes ends with exactly one callback followed by the re-queue of
buffer 1. -/
theorem poll_success_recirculates_witness :
    (∀ i b, PollOutcome.success 1 99 = .success i b →
      ([PollEvent.wait 2, .wait 2, .callback 1 99, .requeue 1].filter
          isCallbackEv = [.callback i b]) ∧
      ∃ pre, [PollEvent.wait 2, .wait 2, .callback 1 99, .requeue 1] =
        pre ++ [.callback i b, .requeue i]) ∧
    (([PollEvent.wait 2, .wait 2, .callback 1 99, .requeue 1].filter
        isCallbackEv ≠ []) →
      ([PollEvent.wait 2, .wait 2, .callback 1 99, .requeue 1].filter
        isRequeueEv = []) →
      requeueFatal (.success 1 99) = true) :=
  poll_success_recirculates 4 [eagainStep, readyStep]
    [.wait 2, .wait 2, .callback 1 99, .requeue 1] (.success 1 99)
    (by decide)

/-- Claim C5: a wait interrupted by a transient signal N times before a
buffer becomes ready is retried transparently — each retried `select` is
re-armed with the full 2-second timeout (the `wait 2` events), the
interruptions are invisible in the outcome, and the frame that becomes
ready is still returned to the caller. -/
theorem poll_eintr_full_retry (nb N : Nat) (g : PollStep) (c c2 : CallResult)
    (hsel : g.sel = .ready)
    (hdq : xioctl g.dqCalls = some c) (hcr : ¬ c.r < 0)
    (hidx : g.dqIndex < nb)
    (hqb : xioctl g.qbufCalls = some c2) (hc2 : ¬ c2.r < 0) :
    poll nb (List.replicate N eintrStep ++ [g]) =
      (List.replicate N (.wait 2) ++
        [.wait 2, .callback g.dqIndex g.dqBytes, .requeue g.dqIndex],
       .success g.dqIndex g.dqBytes) := by
  induction N with
  | zero =>
    obtain ⟨sel, dqC, dqI, dqB, qbC⟩ := g
    simp only at hsel hdq hqb hidx ⊢
    subst hsel
    simp [poll, hdq, hqb, hcr, hc2, hidx]
  | succ k ih =>
    rw [List.replicate_succ, List.cons_append]
    have hstep : poll nb (eintrStep :: (List.replicate k eintrStep ++ [g])) =
        (.wait 2 :: (poll nb (List.replicate k eintrStep ++ [g])).1,
         (poll nb (List.replicate k eintrStep ++ [g])).2) := by
      simp [poll, eintrStep, eintrCode]
    rw [hstep, ih]
    simp [List.replicate_succ]

/-- Witness for C5: three signal interruptions, then a ready buffer —
the trace shows four full-timeout waits and the poll still succeeds with
buffer 1 and 99 bytes. -/
theorem poll_eintr_full_retry_witness :
    poll 4 (List.replicate 3 eintrStep ++ [readyStep]) =
      (List.replicate 3 (.wait 2) ++
        [.wait 2, .callback readyStep.dqIndex readyStep.dqBytes,
         .requeue readyStep.dqIndex],
       .success readyStep.dqIndex readyStep.dqBytes) :=
  poll_eintr_full_retry 4 3 readyStep okAttempt okAttempt (by decide)
    (by decide) (by decide) (by decide) (by decide) (by decide)

/-- Claim C8: when the dequeue inside `poll` reports EAGAIN after the
wait signalled readiness, the iteration adds only its wait event — no
callback, no failure — and the call continues as the loop over the
remaining iterations; a dequeue failure with any other errno makes the
call fail with that errno. -/
theorem poll_dequeue_try_again (nb : Nat) (s : PollStep)
    (rest : List PollStep) (c : CallResult) (hsel : s.sel = .ready)
    (hdq : xioctl s.dqCalls = some c) (hr : c.r < 0) :
    (c.en = eagainCode →
      poll nb (s :: rest) = (.wait 2 :: (poll nb rest).1, (poll nb rest).2)) ∧
    (c.en ≠ eagainCode →
      poll nb (s :: rest) = ([.wait 2], .dqbufFailed c.en)) := by
  obtain ⟨sel, dqC, dqI, dqB, qbC⟩ := s
  simp only at hsel hdq
  subst hsel
  constructor
  · intro hea; simp [poll, hdq, hr, hea]
  · intro hea; simp [poll, hdq, hr, hea]

/-- Witness for C8: an EAGAIN dequeue followed by a good iteration loops
back and still succeeds with buffer 1. -/
theorem poll_dequeue_try_again_witness :
    (eagainCode = eagainCode →
      poll 4 [eagainStep, readyStep] =
        (.wait 2 :: (poll 4 [readyStep]).1, (poll 4 [readyStep]).2)) ∧
    (eagainCode ≠ eagainCode →
      poll 4 [eagainStep, readyStep] = ([.wait 2], .dqbufFailed eagainCode)) :=
  poll_dequeue_try_again 4 eagainStep [readyStep] ⟨-1, eagainCode⟩
    (by decide) (by decide) (by decide)

/-- Witness for C3: a device reporting width 640, height 480, stride 100
(below 2*640 = 1280) and image size 0 has its stride raised to exactly
1280 and its image size raised to exactly 1280*480 = 614400. -/
theorem defensive_min_bounds_witness :
    2 * (640 : Nat) ≤ (defensiveMin ⟨640, 480, 100, 0⟩).bytesperline ∧
    (defensiveMin ⟨640, 480, 100, 0⟩).bytesperline * 480 ≤
      (defensiveMin ⟨640, 480, 100, 0⟩).sizeimage ∧
    ((100 : Nat) < 2 * 640 →
      (defensiveMin ⟨640, 480, 100, 0⟩).bytesperline = 2 * 640) ∧
    (2 * (640 : Nat) ≤ 100 →
      (defensiveMin ⟨640, 480, 100, 0⟩).bytesperline = 100) ∧
    ((0 : Nat) < (defensiveMin ⟨640, 480, 100, 0⟩).bytesperline * 480 →
      (defensiveMin ⟨640, 480, 100, 0⟩).sizeimage =
        (defensiveMin ⟨640, 480, 100, 0⟩).bytesperline * 480) ∧
    ((defensiveMin ⟨640, 480, 100, 0⟩).bytesperline * 480 ≤ 0 →
      (defensiveMin ⟨640, 480, 100, 0⟩).sizeimage = 0) :=
  defensive_min_bounds ⟨640, 480, 100, 0⟩ (by decide) (by decide)

/-- Claim C9: every control call of the session lifecycle — all issued
through the `xioctl` retry wrapper — is transparently retried while it
fails with EINTR, so no signal-interruption errno is ever surfaced: a
single EINTR attempt is skipped by `xioctl`, every error the constructor
throws carries an errno other than EINTR, and every error `poll` throws
carries an errno other than EINTR. -/
theorem control_calls_never_surface_eintr (o : DeviceOracle) (ff : Bool)
    (trc : List Act) (e : CErr) (nb : Nat) (steps : List PollStep)
    (trp : List PollEvent) (out : PollOutcome)
    (hc : construct o ff = (trc, .err e))
    (hp : poll nb steps = (trp, out)) :
    (∀ l, xioctl (eintrAttempt :: l) = xioctl l) ∧
    cerrErrno e ≠ some eintrCode ∧
    pollErrno out ≠ some eintrCode :=
  ⟨xioctl_skips_eintr, construct_err_no_eintr o ff trc e hc,
   poll_no_eintr nb steps trp out hp⟩

/-- Witness for C9: the device granting one buffer makes start throw the
insufficient-buffers error (errno-free, hence not EINTR), and a dequeue
failing with EINVAL makes poll throw with EINVAL, not EINTR. -/
theorem control_calls_never_surface_eintr_witness :
    (∀ l, xioctl (eintrAttempt :: l) = xioctl l) ∧
    cerrErrno .insufficientBuffers ≠ some eintrCode ∧
    pollErrno (.dqbufFailed einvalCode) ≠ some eintrCode :=
  control_calls_never_surface_eintr
    { happyOracle with grantFor := fun _ => 1 } true [.opened]
    .insufficientBuffers 4 [dqFailStep] [.wait 2] (.dqbufFailed einvalCode)
    (by decide) (by decide)

end V4L2Test
